import Mathlib

/-!
Shallow embedding of the GRPO loss module (`src/prime_rl/trainer/loss.py`)
over exact real arithmetic, together with theorems checking the
natural-language specification of the module against the code.

Tensors of shape `(batch, seq, vocab)` are embedded as functions
`Fin B → Fin S → Fin V → ℝ`; integer tensors as `Fin B → Fin S → ℤ`.
Fallible tensor operations (`torch.kthvalue` and `torch.min`, which raise a
runtime error when invoked on an empty tensor or with an out-of-range rank)
are embedded as `Except LossError` values.
-/

/-- Element dtype of the score tensor, as far as `selective_log_softmax`
distinguishes it: the code branches on `logits.dtype in [torch.float32,
torch.float64]`. -/
inductive DType where
  | float32
  | float64
  | bfloat16
  | float16
deriving DecidableEq

/-- Runtime errors the embedded code can raise.
`kthvalueOutOfRange` models the `RuntimeError` raised by `torch.kthvalue`
when the requested rank is not between 1 and the number of elements
(in particular on an empty tensor); `minOnEmpty` models `torch.min` on an
empty tensor; `invalidGrpoLossType` models the `ValueError` raised by the
`grpo_loss` dispatcher on an unrecognized config. -/
inductive LossError where
  | kthvalueOutOfRange
  | minOnEmpty
  | invalidGrpoLossType
deriving DecidableEq

/-- Modelled from the spec: the repository's `trainer/config.py` (not under
`src/`) defines `GRPOVariantsConfig` as a tagged union of `ClippingConfig`
and `RatioConfig`; the spec describes it as a "tagged choice: clip-policy or
ratio-policy" and requires "any unrecognized tag" to be a fatal
configuration error, so a third case stands for any value that is neither.
The hyperparameter fields are the ones `grpo_loss` reads in `loss.py`. -/
inductive GRPOVariantsConfig where
  | clipping (epsilon_low epsilon_high clip_ratio highest_entropy_ratio_loss : ℝ)
  | ratio (clip_ratio highest_entropy_ratio_loss : ℝ)
  | unrecognized

/-- Python `int(x)` applied to a float: truncation toward zero. -/
noncomputable def pyInt (x : ℝ) : ℤ :=
  if 0 ≤ x then ⌊x⌋ else -⌊-x⌋

/-- `_masked_sum(tensor, mask)`: `(tensor * mask).sum()`. -/
noncomputable def masked_sum {B S : ℕ} (t : Fin B → Fin S → ℝ) (m : Fin B → Fin S → ℤ) : ℝ :=
  ∑ b, ∑ s, t b s * (m b s : ℝ)

/-- `torch.logsumexp(x, dim=-1)` on one vocabulary row. -/
noncomputable def logsumexp {V : ℕ} (x : Fin V → ℝ) : ℝ :=
  Real.log (∑ v, Real.exp (x v))

/-- `torch.nn.functional.softmax(x, dim=-1)` on one vocabulary row. -/
noncomputable def softmax {V : ℕ} (x : Fin V → ℝ) : Fin V → ℝ :=
  fun v => Real.exp (x v) / ∑ u, Real.exp (x u)

/-- `torch.nn.functional.log_softmax(x, dim=-1)` on one vocabulary row:
the logarithm of the normalized probability. -/
noncomputable def logSoftmax {V : ℕ} (x : Fin V → ℝ) : Fin V → ℝ :=
  fun v => Real.log (softmax x v)

/-- `selective_log_softmax(logits, index)`: the full-precision branch
computes the gathered score minus a per-row `logsumexp`; every other dtype
falls back to gathering from a per-row `log_softmax`. -/
noncomputable def selective_log_softmax {B S V : ℕ} (dt : DType)
    (logits : Fin B → Fin S → Fin V → ℝ) (index : Fin B → Fin S → Fin V) :
    Fin B → Fin S → ℝ :=
  if dt = DType.float32 ∨ dt = DType.float64 then
    fun b s => logits b s (index b s) - logsumexp (logits b s)
  else
    fun b s => logSoftmax (logits b s) (index b s)

/-- The naive reference implementation named in the docstring of
`selective_log_softmax`: `gather(log_softmax(logits), index)`. -/
noncomputable def naive_log_softmax_gather {B S V : ℕ}
    (logits : Fin B → Fin S → Fin V → ℝ) (index : Fin B → Fin S → Fin V) :
    Fin B → Fin S → ℝ :=
  fun b s => logSoftmax (logits b s) (index b s)

/-- Per-position entropy formula shared by `compute_entropy` and
`highest_entropy_mask`:
`logsumexp(x) - sum(softmax(x) * x)` along the vocabulary axis. -/
noncomputable def entropyRow {V : ℕ} (x : Fin V → ℝ) : ℝ :=
  logsumexp x - ∑ v, softmax x v * x v

/-- Dividing every score by the sampling temperature
(`shifted_logits / temperature`). -/
noncomputable def scaleByTemperature {B S V : ℕ}
    (shifted_logits : Fin B → Fin S → Fin V → ℝ) (temperature : ℝ) :
    Fin B → Fin S → Fin V → ℝ :=
  fun b s v => shifted_logits b s v / temperature

/-- `compute_entropy(shifted_logits, loss_mask, temperature)`. -/
noncomputable def compute_entropy {B S V : ℕ}
    (shifted_logits : Fin B → Fin S → Fin V → ℝ) (loss_mask : Fin B → Fin S → ℤ)
    (temperature : ℝ) : ℝ :=
  masked_sum (fun b s => entropyRow (scaleByTemperature shifted_logits temperature b s)) loss_mask

/-- `torch.clamp(x, lo, hi)`. -/
noncomputable def clampR (x lo hi : ℝ) : ℝ :=
  min (max x lo) hi

/-- `entropy[loss_mask.bool()]`: the per-position entropy values at the
positions where the loss mask is nonzero, flattened in row-major order. -/
noncomputable def validEntropyList {B S : ℕ}
    (entropy : Fin B → Fin S → ℝ) (loss_mask : Fin B → Fin S → ℤ) : List ℝ :=
  ((List.finRange B).map fun b =>
    (((List.finRange S).filter fun s => decide (loss_mask b s ≠ 0)).map fun s =>
      entropy b s)).flatten

/-- Number of valid (nonzero-mask) positions, `loss_mask.bool().sum()`-style. -/
def numValidPositions {B S : ℕ} (loss_mask : Fin B → Fin S → ℤ) : ℕ :=
  (((List.finRange B).map fun b =>
    (((List.finRange S).filter fun s => decide (loss_mask b s ≠ 0))).length)).sum

/-- Number of positions a boolean mask selects. -/
def selectedCount {B S : ℕ} (msk : Fin B → Fin S → Bool) : ℕ :=
  (((List.finRange B).map fun b =>
    (((List.finRange S).filter fun s => msk b s)).length)).sum

/-- `torch.kthvalue(l, r).values`: the `r`-th smallest element, defined when
`1 ≤ r ≤ l.length`; out-of-range ranks (in particular any rank against an
empty tensor) raise. -/
noncomputable def kthvalue (l : List ℝ) (r : ℤ) : Except LossError ℝ :=
  if h : 1 ≤ r ∧ (r - 1).toNat < (List.insertionSort (· ≤ ·) l).length then
    Except.ok ((List.insertionSort (· ≤ ·) l).get ⟨(r - 1).toNat, h.2⟩)
  else
    Except.error LossError.kthvalueOutOfRange

/-- `highest_entropy_mask(logits, loss_mask, percent)`. -/
noncomputable def highest_entropy_mask {B S V : ℕ}
    (logits : Fin B → Fin S → Fin V → ℝ) (loss_mask : Fin B → Fin S → ℤ)
    (percent : ℝ) : Except LossError (Fin B → Fin S → Bool) :=
  let entropy : Fin B → Fin S → ℝ := fun b s => entropyRow (logits b s)
  let valid_entropy : List ℝ := validEntropyList entropy loss_mask
  let n : ℕ := valid_entropy.length
  let k0 : ℤ := pyInt (percent * (n : ℝ))
  let k : ℤ := if k0 < 1 then 1 else k0
  if k = (n : ℤ) then
    match valid_entropy.min? with
    | some mn =>
        Except.ok fun b s => decide (mn - 1 ≤ entropy b s) && decide (loss_mask b s ≠ 0)
    | none => Except.error LossError.minOnEmpty
  else
    match kthvalue valid_entropy ((n : ℤ) - k + 1) with
    | Except.ok threshold =>
        Except.ok fun b s => decide (threshold ≤ entropy b s) && decide (loss_mask b s ≠ 0)
    | Except.error e => Except.error e

/-- `coef_1 = clamp(exp(per_token_logps - original_logprobs), 0, clip_ratio)`. -/
noncomputable def clipCoef1 {B S : ℕ} (per_token_logps original_logprobs : Fin B → Fin S → ℝ)
    (clip_ratio : ℝ) : Fin B → Fin S → ℝ :=
  fun b s => clampR (Real.exp (per_token_logps b s - original_logprobs b s)) 0 clip_ratio

/-- `coef_2 = clamp(coef_1, 1 - epsilon_low, 1 + epsilon_high)`. -/
noncomputable def clipCoef2 {B S : ℕ} (coef_1 : Fin B → Fin S → ℝ)
    (epsilon_low epsilon_high : ℝ) : Fin B → Fin S → ℝ :=
  fun b s => clampR (coef_1 b s) (1 - epsilon_low) (1 + epsilon_high)

/-- `-coef * advantages`, the per-token surrogate loss shared by both
engines. -/
noncomputable def negMulAdv {B S : ℕ} (coef advantages : Fin B → Fin S → ℝ) :
    Fin B → Fin S → ℝ :=
  fun b s => -(coef b s) * advantages b s

/-- `(per_token_loss1 < per_token_loss2).float()`, the clip-policy
clipped-token indicator. -/
noncomputable def clipIsClipped {B S : ℕ} (l1 l2 : Fin B → Fin S → ℝ) :
    Fin B → Fin S → ℝ :=
  fun b s => if l1 b s < l2 b s then 1 else 0

/-- `raw_ratio = exp(per_token_logps - original_logprobs)` (unclamped). -/
noncomputable def rawRatioOf {B S : ℕ} (per_token_logps original_logprobs : Fin B → Fin S → ℝ) :
    Fin B → Fin S → ℝ :=
  fun b s => Real.exp (per_token_logps b s - original_logprobs b s)

/-- `(raw_ratio > clip_ratio).float()`, the ratio-policy clipped-token
indicator. -/
noncomputable def ratioIsClipped {B S : ℕ} (raw_ratio : Fin B → Fin S → ℝ)
    (clip_ratio : ℝ) : Fin B → Fin S → ℝ :=
  fun b s => if clip_ratio < raw_ratio b s then 1 else 0

/-- `clamp(raw_ratio, 0, clip_ratio)`. -/
noncomputable def clampedRatioOf {B S : ℕ} (raw_ratio : Fin B → Fin S → ℝ)
    (clip_ratio : ℝ) : Fin B → Fin S → ℝ :=
  fun b s => clampR (raw_ratio b s) 0 clip_ratio

/-- A boolean mask reinterpreted as the 0/1 integer mask that multiplies the
per-token tensors in `_masked_sum`. -/
def boolMaskToInt {B S : ℕ} (msk : Fin B → Fin S → Bool) : Fin B → Fin S → ℤ :=
  fun b s => if msk b s then 1 else 0

/-- `grpo_loss_clip`: the clip-policy loss variant engine. -/
noncomputable def grpo_loss_clip {B S V : ℕ} (dt : DType)
    (shifted_logits : Fin B → Fin S → Fin V → ℝ) (input_ids : Fin B → Fin S → Fin V)
    (advantages original_logprobs : Fin B → Fin S → ℝ) (loss_mask : Fin B → Fin S → ℤ)
    (temperature epsilon_low epsilon_high clip_ratio highest_entropy_percentage : ℝ) :
    Except LossError (ℝ × ℝ × ℝ) :=
  let sl := scaleByTemperature shifted_logits temperature
  let per_token_logps := selective_log_softmax dt sl input_ids
  let coef_1 := clipCoef1 per_token_logps original_logprobs clip_ratio
  let coef_2 := clipCoef2 coef_1 epsilon_low epsilon_high
  let per_token_loss1 := negMulAdv coef_1 advantages
  let per_token_loss2 := negMulAdv coef_2 advantages
  let per_token_loss := fun b s => max (per_token_loss1 b s) (per_token_loss2 b s)
  let is_clipped := clipIsClipped per_token_loss1 per_token_loss2
  let clipped_token_count := masked_sum is_clipped loss_mask
  let finalMask : Except LossError (Fin B → Fin S → ℤ) :=
    if highest_entropy_percentage < 1 then
      match highest_entropy_mask sl loss_mask highest_entropy_percentage with
      | Except.ok msk => Except.ok (boolMaskToInt msk)
      | Except.error e => Except.error e
    else
      Except.ok loss_mask
  match finalMask with
  | Except.ok fm =>
      Except.ok (masked_sum per_token_loss fm, masked_sum coef_2 fm, clipped_token_count)
  | Except.error e => Except.error e

/-- `grpo_loss_ratio`: the ratio-policy loss variant engine. -/
noncomputable def grpo_loss_ratio {B S V : ℕ} (dt : DType)
    (shifted_logits : Fin B → Fin S → Fin V → ℝ) (input_ids : Fin B → Fin S → Fin V)
    (advantages original_logprobs : Fin B → Fin S → ℝ) (loss_mask : Fin B → Fin S → ℤ)
    (temperature clip_ratio highest_entropy_percentage : ℝ) :
    Except LossError (ℝ × ℝ × ℝ) :=
  let sl := scaleByTemperature shifted_logits temperature
  let per_token_logps := selective_log_softmax dt sl input_ids
  let raw_ratio := rawRatioOf per_token_logps original_logprobs
  let is_clipped := ratioIsClipped raw_ratio clip_ratio
  let clipped_token_count := masked_sum is_clipped loss_mask
  let ratio := clampedRatioOf raw_ratio clip_ratio
  let loss := negMulAdv ratio advantages
  let finalMask : Except LossError (Fin B → Fin S → ℤ) :=
    if highest_entropy_percentage < 1 then
      match highest_entropy_mask sl loss_mask highest_entropy_percentage with
      | Except.ok msk => Except.ok (boolMaskToInt msk)
      | Except.error e => Except.error e
    else
      Except.ok loss_mask
  match finalMask with
  | Except.ok fm =>
      Except.ok (masked_sum loss fm, masked_sum ratio fm, clipped_token_count)
  | Except.error e => Except.error e

/-- `grpo_loss`: the dispatcher over the tagged variant configuration. -/
noncomputable def grpo_loss {B S V : ℕ} (dt : DType)
    (shifted_logits : Fin B → Fin S → Fin V → ℝ) (input_ids : Fin B → Fin S → Fin V)
    (advantages original_logprobs : Fin B → Fin S → ℝ) (loss_mask : Fin B → Fin S → ℤ)
    (temperature : ℝ) (grpo_loss_config : GRPOVariantsConfig) :
    Except LossError (ℝ × ℝ × ℝ) :=
  match grpo_loss_config with
  | GRPOVariantsConfig.clipping el eh cr hep =>
      grpo_loss_clip dt shifted_logits input_ids advantages original_logprobs loss_mask
        temperature el eh cr hep
  | GRPOVariantsConfig.ratio cr hep =>
      grpo_loss_ratio dt shifted_logits input_ids advantages original_logprobs loss_mask
        temperature cr hep
  | GRPOVariantsConfig.unrecognized => Except.error LossError.invalidGrpoLossType

/-- `V` read off the tensor shape (`B, _, V = logits.shape`), for the
list-of-lists embedding used by `shift_logits`. -/
def tensorVocabLen (logits : List (List (List ℝ))) : ℕ :=
  ((logits.getD 0 []).getD 0 []).length

/-- `shift_logits(logits)`: drop the final position of every batch row and
prepend an all-zero vocabulary vector (`cat([zeros(B, 1, V), logits[:, :-1, :]], dim=1)`). -/
def shift_logits (logits : List (List (List ℝ))) : List (List (List ℝ)) :=
  logits.map fun row => List.replicate (tensorVocabLen logits) 0 :: row.dropLast

/-- Shape contract of a `(B, S, V)` tensor in the list embedding. -/
def WellShaped (logits : List (List (List ℝ))) (B S V : ℕ) : Prop :=
  logits.length = B ∧ (∀ r ∈ logits, r.length = S) ∧ ∀ r ∈ logits, ∀ x ∈ r, x.length = V

instance (logits : List (List (List ℝ))) (B S V : ℕ) : Decidable (WellShaped logits B S V) := by
  unfold WellShaped
  infer_instance


/-- Concrete scores tensor for the C2 counterexample: batch 1, three
sequence positions over a two-entry vocabulary; position 0 scores `[0,0]`
(entropy `log 2`), positions 1 and 2 score `[0,4]` (strictly smaller
entropy). -/
noncomputable def c2Logits : Fin 1 → Fin 3 → Fin 2 → ℝ :=
  fun _ => ![![0, 0], ![0, 4], ![0, 4]]

/-- All-ones loss mask for the C2 counterexample. -/
def c2Mask : Fin 1 → Fin 3 → ℤ := fun _ _ => 1

/-- Concrete scores tensor showing temperature-dependent entropy selection:
batch 1, two sequence positions over a three-entry vocabulary; position 0
scores `[0,0,1]`, position 1 scores `[0,10,10]`. -/
noncomputable def c9Logits : Fin 1 → Fin 2 → Fin 3 → ℝ :=
  fun _ => ![![0, 0, 1], ![0, 10, 10]]

/-- The same scores divided by temperature `1/10` (i.e. multiplied by 10). -/
noncomputable def c9LogitsT : Fin 1 → Fin 2 → Fin 3 → ℝ :=
  fun _ => ![![0, 0, 10], ![0, 100, 100]]

/-- All-ones loss mask for the temperature-dependence example. -/
def c9Mask : Fin 1 → Fin 2 → ℤ := fun _ _ => 1


/-- The selection mask the selector returns on `c9Logits` at temperature 1:
threshold is the entropy of the `[0,0,1]` row (the higher one there). -/
noncomputable def c9maskA : Fin 1 → Fin 2 → Bool :=
  fun b s => decide (entropyRow ![(0 : ℝ), 0, 1] ≤ entropyRow (c9Logits b s)) &&
    decide (c9Mask b s ≠ 0)

/-- The selection mask the selector returns on the same scores at
temperature `1/10`: threshold is the entropy of the `[0,100,100]` row (the
higher one after scaling). -/
noncomputable def c9maskB : Fin 1 → Fin 2 → Bool :=
  fun b s => decide (entropyRow ![(0 : ℝ), 100, 100] ≤ entropyRow (c9LogitsT b s)) &&
    decide (c9Mask b s ≠ 0)

theorem sum_exp_pos {V : ℕ} (i : Fin V) (x : Fin V → ℝ) : 0 < ∑ v, Real.exp (x v) :=
  Finset.sum_pos (fun _ _ => Real.exp_pos _) ⟨i, Finset.mem_univ i⟩

theorem le_logsumexp {V : ℕ} (x : Fin V → ℝ) (i : Fin V) : x i ≤ logsumexp x := by
  have h1 : Real.exp (x i) ≤ ∑ v, Real.exp (x v) :=
    Finset.single_le_sum (fun j _ => (Real.exp_pos (x j)).le) (Finset.mem_univ i)
  calc x i = Real.log (Real.exp (x i)) := (Real.log_exp _).symm
    _ ≤ logsumexp x := Real.log_le_log (Real.exp_pos _) h1

theorem logSoftmax_eq {V : ℕ} (x : Fin V → ℝ) (i : Fin V) :
    logSoftmax x i = x i - logsumexp x := by
  unfold logSoftmax softmax logsumexp
  rw [Real.log_div (Real.exp_ne_zero _) (ne_of_gt (sum_exp_pos i x)), Real.log_exp]

theorem entropyRow_nonneg {V : ℕ} (x : Fin V → ℝ) : 0 ≤ entropyRow x := by
  rcases isEmpty_or_nonempty (Fin V) with hV | hV
  · simp [entropyRow, logsumexp, Finset.univ_eq_empty, Real.log_zero]
  · obtain ⟨i⟩ := hV
    have hZ : 0 < ∑ v, Real.exp (x v) := sum_exp_pos i x
    have h1 : ∑ v, softmax x v * x v = (∑ v, Real.exp (x v) * x v) / ∑ v, Real.exp (x v) := by
      unfold softmax
      rw [Finset.sum_div]
      exact Finset.sum_congr rfl fun v _ => by rw [div_mul_eq_mul_div]
    rw [entropyRow, h1, sub_nonneg, div_le_iff₀ hZ]
    calc ∑ v, Real.exp (x v) * x v
        ≤ ∑ v, Real.exp (x v) * logsumexp x :=
          Finset.sum_le_sum fun v _ =>
            mul_le_mul_of_nonneg_left (le_logsumexp x v) (Real.exp_pos _).le
      _ = (∑ v, Real.exp (x v)) * logsumexp x := by rw [← Finset.sum_mul]
      _ = logsumexp x * ∑ v, Real.exp (x v) := mul_comm _ _

/-- Claim C8: for every finite scores tensor, the per-position entropy
`logsumexp(scores) - sum(softmax(scores) * scores)` along the vocabulary
axis is nonnegative at every position. -/
theorem c8_entropy_nonneg {B S V : ℕ} (logits : Fin B → Fin S → Fin V → ℝ)
    (b : Fin B) (s : Fin S) : 0 ≤ entropyRow (logits b s) :=
  entropyRow_nonneg (logits b s)

/-- Claim C3: for every scores tensor and in-range token ids, both dtype
branches of `selective_log_softmax` compute, under exact arithmetic, the
same function as the naive `gather(log_softmax(scores), token_ids)`
reference, hence agree with each other, and the result at every position
is nonpositive. -/
theorem c3_selective_log_softmax_paths_agree {B S V : ℕ} (dt dt' : DType)
    (logits : Fin B → Fin S → Fin V → ℝ) (index : Fin B → Fin S → Fin V)
    (b : Fin B) (s : Fin S) :
    selective_log_softmax dt logits index b s = naive_log_softmax_gather logits index b s ∧
    selective_log_softmax dt logits index b s = selective_log_softmax dt' logits index b s ∧
    selective_log_softmax dt logits index b s ≤ 0 := by
  have key : ∀ d : DType,
      selective_log_softmax d logits index b s = naive_log_softmax_gather logits index b s := by
    intro d
    unfold selective_log_softmax naive_log_softmax_gather
    split
    · exact (logSoftmax_eq (logits b s) (index b s)).symm
    · rfl
  refine ⟨key dt, (key dt).trans (key dt').symm, ?_⟩
  rw [key dt]
  unfold naive_log_softmax_gather
  rw [logSoftmax_eq, sub_nonpos]
  exact le_logsumexp (logits b s) (index b s)

theorem length_validEntropyList {B S : ℕ} (e : Fin B → Fin S → ℝ) (m : Fin B → Fin S → ℤ) :
    (validEntropyList e m).length = numValidPositions m := by
  unfold validEntropyList numValidPositions
  rw [List.length_flatten, List.map_map]
  congr 1
  apply List.map_congr_left
  intro b _
  simp [Function.comp]

theorem real_min?_spec {l : List ℝ} {a : ℝ} (h : l.min? = some a) :
    a ∈ l ∧ ∀ x ∈ l, a ≤ x := by
  haveI : Std.Antisymm ((· : ℝ) ≤ ·) := ⟨fun h1 h2 => le_antisymm h1 h2⟩
  rw [List.min?_eq_some_iff le_refl min_choice (fun _ _ _ => le_min_iff)] at h
  exact h

theorem min?_isSome_of_ne_nil {l : List ℝ} (h : l ≠ []) : ∃ m, l.min? = some m := by
  cases l with
  | nil => exact absurd rfl h
  | cons a as => exact ⟨as.foldl min a, rfl⟩

theorem selectedCount_eq_countP {B S : ℕ} (e : Fin B → Fin S → ℝ)
    (m : Fin B → Fin S → ℤ) (θ : ℝ) :
    selectedCount (fun b s => decide (θ ≤ e b s) && decide (m b s ≠ 0)) =
      (validEntropyList e m).countP (fun x => decide (θ ≤ x)) := by
  unfold selectedCount validEntropyList
  rw [List.countP_flatten, List.map_map]
  congr 1
  apply List.map_congr_left
  intro b _
  simp only [Function.comp]
  rw [List.countP_map, List.countP_eq_length_filter, List.filter_filter]
  rfl

theorem countP_ge_of_sorted_get {l : List ℝ} {i : ℕ}
    (hi : i < (List.insertionSort (· ≤ ·) l).length) :
    (List.insertionSort (· ≤ ·) l).length - i ≤
      l.countP fun x => decide ((List.insertionSort (· ≤ ·) l).get ⟨i, hi⟩ ≤ x) := by
  set s := List.insertionSort (· ≤ ·) l with hs
  have hperm : List.Perm s l := List.perm_insertionSort _ l
  have hsorted : List.Sorted (· ≤ ·) s := List.sorted_insertionSort _ l
  rw [← hperm.countP_eq]
  set θ := s.get ⟨i, hi⟩ with hθ
  have hdropsorted : List.Sorted (· ≤ ·) (s.drop i) :=
    List.Pairwise.sublist (List.drop_sublist i s) hsorted
  have hcons : s.drop i = θ :: s.drop (i + 1) := by
    rw [hθ, List.get_eq_getElem]
    exact List.drop_eq_getElem_cons hi
  have hall : ∀ x ∈ s.drop i, θ ≤ x := by
    intro x hx
    rw [hcons] at hx hdropsorted
    rcases List.mem_cons.mp hx with rfl | hx'
    · exact le_refl _
    · exact (List.sorted_cons.mp hdropsorted).1 x hx'
  have hdropAll : (s.drop i).countP (fun x => decide (θ ≤ x)) = (s.drop i).length := by
    apply List.countP_eq_length.mpr
    intro x hx
    exact decide_eq_true (hall x hx)
  have hsplit : s.countP (fun x => decide (θ ≤ x)) =
      (s.take i).countP (fun x => decide (θ ≤ x)) +
      (s.drop i).countP (fun x => decide (θ ≤ x)) := by
    conv_lhs => rw [← List.take_append_drop i s]
    rw [List.countP_append]
  calc s.length - i = (s.drop i).length := (List.length_drop i s).symm
    _ = (s.drop i).countP (fun x => decide (θ ≤ x)) := hdropAll.symm
    _ ≤ s.countP (fun x => decide (θ ≤ x)) := by rw [hsplit]; exact Nat.le_add_left _ _

/-- Claim C2 (amended): for every scores tensor and loss mask with `N ≥ 1`
valid positions and every percentage `p` in `(0,1)`, the selector returns a
mask that selects at least `max(1, floor(p·N))` positions (the code computes
`k` with `int(p * N)`, i.e. floor, not round), and the selected set is a
subset of the originally valid (nonzero-mask) positions. -/
theorem c2_selector_cardinality_floor {B S V : ℕ}
    (logits : Fin B → Fin S → Fin V → ℝ) (m : Fin B → Fin S → ℤ) (p : ℝ)
    (hp0 : 0 < p) (hp1 : p < 1) (hN : 1 ≤ numValidPositions m) :
    ∃ msk, highest_entropy_mask logits m p = Except.ok msk ∧
      max 1 ⌊p * (numValidPositions m : ℝ)⌋ ≤ (selectedCount msk : ℤ) ∧
      ∀ b s, msk b s = true → m b s ≠ 0 := by
  simp only [highest_entropy_mask]
  set E : Fin B → Fin S → ℝ := fun b s => entropyRow (logits b s) with hE
  set L : List ℝ := validEntropyList E m with hLdef
  have hlen : L.length = numValidPositions m := length_validEntropyList E m
  rw [← hlen]
  have hn1 : 1 ≤ L.length := hlen ▸ hN
  have hnR : (1 : ℝ) ≤ (L.length : ℝ) := by exact_mod_cast hn1
  have hpn0 : (0 : ℝ) ≤ p * (L.length : ℝ) := by positivity
  have hk0 : pyInt (p * (L.length : ℝ)) = ⌊p * (L.length : ℝ)⌋ := by
    rw [pyInt, if_pos hpn0]
  rw [hk0]
  have hfloor_lt : ⌊p * (L.length : ℝ)⌋ < (L.length : ℤ) := by
    rw [Int.floor_lt]
    push_cast
    calc p * (L.length : ℝ) < 1 * (L.length : ℝ) :=
          mul_lt_mul_of_pos_right hp1 (by linarith)
      _ = (L.length : ℝ) := one_mul _
  set k : ℤ := if ⌊p * (L.length : ℝ)⌋ < 1 then 1 else ⌊p * (L.length : ℝ)⌋ with hkdef
  have hkmax : k = max 1 ⌊p * (L.length : ℝ)⌋ := by rw [hkdef]; split <;> omega
  have hk1 : 1 ≤ k := by rw [hkmax]; exact le_max_left _ _
  have hkn : k ≤ (L.length : ℤ) := by rw [hkmax]; omega
  by_cases hbr : k = (L.length : ℤ)
  · rw [if_pos hbr]
    have hne : L ≠ [] := List.ne_nil_of_length_pos (by omega)
    obtain ⟨mn, hmn⟩ := min?_isSome_of_ne_nil hne
    rw [hmn]
    refine ⟨_, rfl, ?_, ?_⟩
    · rw [selectedCount_eq_countP E m (mn - 1)]
      have hcount : (validEntropyList E m).countP (fun x => decide (mn - 1 ≤ x)) = L.length := by
        apply List.countP_eq_length.mpr
        intro x hx
        have hxle : mn ≤ x := (real_min?_spec hmn).2 x (hLdef ▸ hx)
        exact decide_eq_true (by linarith)
      rw [← hLdef, hcount, ← hbr, hkmax]
    · intro b s h
      exact of_decide_eq_true (Bool.and_elim_right h)
  · rw [if_neg hbr]
    have hklt : k < (L.length : ℤ) := lt_of_le_of_ne hkn hbr
    have hsortlen : (List.insertionSort (· ≤ ·) L).length = L.length :=
      List.length_insertionSort _ _
    simp only [kthvalue]
    have hcond : 1 ≤ (L.length : ℤ) - k + 1 ∧
        ((L.length : ℤ) - k + 1 - 1).toNat < (List.insertionSort (· ≤ ·) L).length := by
      constructor
      · omega
      · rw [hsortlen]; omega
    rw [dif_pos hcond]
    refine ⟨_, rfl, ?_, ?_⟩
    · rw [selectedCount_eq_countP E m _]
      have hcnt := countP_ge_of_sorted_get hcond.2
      rw [← hLdef]
      omega
    · intro b s h
      exact of_decide_eq_true (Bool.and_elim_right h)

theorem grpo_loss_clip_third_eq {B S V : ℕ} (dt : DType)
    (sl : Fin B → Fin S → Fin V → ℝ) (ids : Fin B → Fin S → Fin V)
    (adv ol : Fin B → Fin S → ℝ) (m : Fin B → Fin S → ℤ)
    (T el eh cr p : ℝ) (t : ℝ × ℝ × ℝ)
    (h : grpo_loss_clip dt sl ids adv ol m T el eh cr p = Except.ok t) :
    t.2.2 = masked_sum (clipIsClipped
      (negMulAdv (clipCoef1 (selective_log_softmax dt (scaleByTemperature sl T) ids) ol cr) adv)
      (negMulAdv (clipCoef2 (clipCoef1 (selective_log_softmax dt (scaleByTemperature sl T) ids) ol cr)
        el eh) adv)) m := by
  simp only [grpo_loss_clip] at h
  split at h
  · rw [Except.ok.injEq] at h
    rw [← h]
  · exact absurd h (by simp)

theorem grpo_loss_ratio_third_eq {B S V : ℕ} (dt : DType)
    (sl : Fin B → Fin S → Fin V → ℝ) (ids : Fin B → Fin S → Fin V)
    (adv ol : Fin B → Fin S → ℝ) (m : Fin B → Fin S → ℤ)
    (T cr p : ℝ) (t : ℝ × ℝ × ℝ)
    (h : grpo_loss_ratio dt sl ids adv ol m T cr p = Except.ok t) :
    t.2.2 = masked_sum
      (ratioIsClipped (rawRatioOf (selective_log_softmax dt (scaleByTemperature sl T) ids) ol) cr)
      m := by
  simp only [grpo_loss_ratio] at h
  split at h
  · rw [Except.ok.injEq] at h
    rw [← h]
  · exact absurd h (by simp)

/-- Claim C5: in both loss-variant engines the returned clipped-token count
is the masked sum of the per-token clipped indicator over the original
input loss mask (computed before any entropy narrowing), so whenever two
calls differing only in the entropy-selection percentage both return, their
clipped-token counts coincide. -/
theorem c5_clipped_count_independent {B S V : ℕ} :
    (∀ (dt : DType) (sl : Fin B → Fin S → Fin V → ℝ) (ids : Fin B → Fin S → Fin V)
      (adv ol : Fin B → Fin S → ℝ) (m : Fin B → Fin S → ℤ)
      (T el eh cr p₁ p₂ : ℝ) (t₁ t₂ : ℝ × ℝ × ℝ),
      grpo_loss_clip dt sl ids adv ol m T el eh cr p₁ = Except.ok t₁ →
      grpo_loss_clip dt sl ids adv ol m T el eh cr p₂ = Except.ok t₂ →
      t₁.2.2 = masked_sum (clipIsClipped
        (negMulAdv (clipCoef1 (selective_log_softmax dt (scaleByTemperature sl T) ids) ol cr) adv)
        (negMulAdv (clipCoef2
          (clipCoef1 (selective_log_softmax dt (scaleByTemperature sl T) ids) ol cr) el eh) adv)) m ∧
      t₁.2.2 = t₂.2.2) ∧
    (∀ (dt : DType) (sl : Fin B → Fin S → Fin V → ℝ) (ids : Fin B → Fin S → Fin V)
      (adv ol : Fin B → Fin S → ℝ) (m : Fin B → Fin S → ℤ)
      (T cr p₁ p₂ : ℝ) (t₁ t₂ : ℝ × ℝ × ℝ),
      grpo_loss_ratio dt sl ids adv ol m T cr p₁ = Except.ok t₁ →
      grpo_loss_ratio dt sl ids adv ol m T cr p₂ = Except.ok t₂ →
      t₁.2.2 = masked_sum
        (ratioIsClipped (rawRatioOf (selective_log_softmax dt (scaleByTemperature sl T) ids) ol) cr)
        m ∧
      t₁.2.2 = t₂.2.2) := by
  constructor
  · intro dt sl ids adv ol m T el eh cr p₁ p₂ t₁ t₂ h₁ h₂
    have e₁ := grpo_loss_clip_third_eq dt sl ids adv ol m T el eh cr p₁ t₁ h₁
    have e₂ := grpo_loss_clip_third_eq dt sl ids adv ol m T el eh cr p₂ t₂ h₂
    exact ⟨e₁, e₁.trans e₂.symm⟩
  · intro dt sl ids adv ol m T cr p₁ p₂ t₁ t₂ h₁ h₂
    have e₁ := grpo_loss_ratio_third_eq dt sl ids adv ol m T cr p₁ t₁ h₁
    have e₂ := grpo_loss_ratio_third_eq dt sl ids adv ol m T cr p₂ t₂ h₂
    exact ⟨e₁, e₁.trans e₂.symm⟩

/-- Claim C6: the dispatcher routes the clip-policy tag to `grpo_loss_clip`
and the ratio-policy tag to `grpo_loss_ratio` with the hyperparameters
extracted from the configuration, and on any other configuration returns
the configuration error — an error value that is the same constant for all
tensor inputs, so no tensor path is evaluated. -/
theorem c6_dispatcher {B S V : ℕ} (dt : DType)
    (sl : Fin B → Fin S → Fin V → ℝ) (ids : Fin B → Fin S → Fin V)
    (adv ol : Fin B → Fin S → ℝ) (m : Fin B → Fin S → ℤ) (T el eh cr hep : ℝ) :
    grpo_loss dt sl ids adv ol m T (GRPOVariantsConfig.clipping el eh cr hep) =
      grpo_loss_clip dt sl ids adv ol m T el eh cr hep ∧
    grpo_loss dt sl ids adv ol m T (GRPOVariantsConfig.ratio cr hep) =
      grpo_loss_ratio dt sl ids adv ol m T cr hep ∧
    grpo_loss dt sl ids adv ol m T GRPOVariantsConfig.unrecognized =
      Except.error LossError.invalidGrpoLossType :=
  ⟨rfl, rfl, rfl⟩

/-- Claim C7: in the ratio-policy engine, at any position where the
extracted log-probability minus the reference log-probability equals 2 and
`clip_ratio = 5`, the raw ratio `e^2` exceeds 5, the clipped indicator is
1, the clamped ratio is 5 and the per-token loss is `-5` times that
position's advantage. -/
theorem c7_ratio_policy_concrete {B S : ℕ}
    (per_token_logps original_logprobs advantages : Fin B → Fin S → ℝ)
    (b : Fin B) (s : Fin S)
    (h : per_token_logps b s - original_logprobs b s = 2) :
    5 < rawRatioOf per_token_logps original_logprobs b s ∧
    ratioIsClipped (rawRatioOf per_token_logps original_logprobs) 5 b s = 1 ∧
    clampedRatioOf (rawRatioOf per_token_logps original_logprobs) 5 b s = 5 ∧
    negMulAdv (clampedRatioOf (rawRatioOf per_token_logps original_logprobs) 5) advantages b s =
      -5 * advantages b s := by
  have hexp2 : Real.exp 2 = Real.exp 1 * Real.exp 1 := by
    rw [← Real.exp_add]; norm_num
  have hexp : (5 : ℝ) < Real.exp 2 := by
    have h1 := Real.exp_one_gt_d9
    nlinarith
  have hraw : rawRatioOf per_token_logps original_logprobs b s = Real.exp 2 := by
    rw [rawRatioOf, h]
  have hclamp : clampedRatioOf (rawRatioOf per_token_logps original_logprobs) 5 b s = 5 := by
    rw [clampedRatioOf, clampR, hraw, max_eq_left (Real.exp_pos 2).le, min_eq_right hexp.le]
  refine ⟨by rw [hraw]; exact hexp, ?_, hclamp, ?_⟩
  · rw [ratioIsClipped, hraw, if_pos hexp]
  · rw [negMulAdv, hclamp]

/-- Claim C10: in the clip-policy engine, a position whose advantage is
exactly 0 has clipped indicator 0 (both candidate surrogate losses are 0
and the comparison is strict), for every ratio and both clip bounds, so the
position contributes 0 to the clipped-token count. -/
theorem c10_zero_advantage_never_clipped {B S : ℕ}
    (per_token_logps original_logprobs advantages : Fin B → Fin S → ℝ)
    (m : Fin B → Fin S → ℤ) (el eh cr : ℝ) (b : Fin B) (s : Fin S)
    (h : advantages b s = 0) :
    clipIsClipped (negMulAdv (clipCoef1 per_token_logps original_logprobs cr) advantages)
      (negMulAdv (clipCoef2 (clipCoef1 per_token_logps original_logprobs cr) el eh) advantages)
      b s = 0 ∧
    clipIsClipped (negMulAdv (clipCoef1 per_token_logps original_logprobs cr) advantages)
      (negMulAdv (clipCoef2 (clipCoef1 per_token_logps original_logprobs cr) el eh) advantages)
      b s * (m b s : ℝ) = 0 := by
  have h0 : clipIsClipped (negMulAdv (clipCoef1 per_token_logps original_logprobs cr) advantages)
      (negMulAdv (clipCoef2 (clipCoef1 per_token_logps original_logprobs cr) el eh) advantages)
      b s = 0 := by
    rw [clipIsClipped, negMulAdv, negMulAdv, h, mul_zero, mul_zero, if_neg (lt_irrefl 0)]
  exact ⟨h0, by rw [h0, zero_mul]⟩

theorem highest_entropy_mask_zero_valid {B S V : ℕ} (logits : Fin B → Fin S → Fin V → ℝ)
    (m : Fin B → Fin S → ℤ) (p : ℝ) (hm : numValidPositions m = 0) :
    highest_entropy_mask logits m p = Except.error LossError.kthvalueOutOfRange := by
  simp only [highest_entropy_mask]
  set E : Fin B → Fin S → ℝ := fun b s => entropyRow (logits b s) with hE
  have hLnil : validEntropyList E m = [] :=
    List.length_eq_zero.mp ((length_validEntropyList E m).trans hm)
  rw [hLnil]
  simp only [List.length_nil, Nat.cast_zero, mul_zero]
  have hpy : pyInt 0 = 0 := by rw [pyInt, if_pos le_rfl, Int.floor_zero]
  rw [hpy]
  have hcond : ¬((if (0:ℤ) < 1 then (1:ℤ) else 0) = (0:ℤ)) := by norm_num
  rw [if_neg hcond]
  simp only [kthvalue]
  rw [dif_neg (by norm_num)]

/-- Claim C1 (violated by the code): with zero valid (nonzero-mask)
positions and percentage `1/2 ∈ (0,1)`, `highest_entropy_mask` does not
return an empty (all-false) selection: forcing `k = 1` it calls
`torch.kthvalue` with rank `0 - 1 + 1 = 0` on the empty valid-entropy
slice, which raises (modelled as the `kthvalueOutOfRange` error). -/
theorem c1_zero_valid_positions_errors :
    highest_entropy_mask (fun (_ : Fin 1) (_ : Fin 1) (_ : Fin 1) => (0 : ℝ))
      (fun _ _ => (0 : ℤ)) (1 / 2) = Except.error LossError.kthvalueOutOfRange :=
  highest_entropy_mask_zero_valid _ _ _ (by decide)

theorem c2_claim_witness :
    (0 : ℝ) < 1 / 2 ∧ (1 / 2 : ℝ) < 1 ∧
    1 ≤ numValidPositions (fun (_ : Fin 1) (_ : Fin 1) => (1 : ℤ)) ∧
    ∃ msk, highest_entropy_mask (fun (_ : Fin 1) (_ : Fin 1) (_ : Fin 1) => (0 : ℝ))
        (fun _ _ => (1 : ℤ)) (1 / 2) = Except.ok msk ∧
      max 1 ⌊(1 / 2 : ℝ) * ((numValidPositions (fun (_ : Fin 1) (_ : Fin 1) => (1 : ℤ)) : ℕ) : ℝ)⌋ ≤
        (selectedCount msk : ℤ) ∧
      ∀ b s, msk b s = true → (1 : ℤ) ≠ 0 :=
  ⟨by norm_num, by norm_num, by decide,
    c2_selector_cardinality_floor (fun _ _ _ => (0 : ℝ)) (fun _ _ => (1 : ℤ)) (1 / 2)
      (by norm_num) (by norm_num) (by decide)⟩

theorem c7_ratio_policy_concrete_witness :
    ((fun (_ : Fin 1) (_ : Fin 1) => (2 : ℝ)) 0 0 - (fun (_ : Fin 1) (_ : Fin 1) => (0 : ℝ)) 0 0
      = 2) ∧
    (5 < rawRatioOf (fun (_ : Fin 1) (_ : Fin 1) => (2 : ℝ)) (fun _ _ => (0 : ℝ)) 0 0 ∧
    ratioIsClipped (rawRatioOf (fun (_ : Fin 1) (_ : Fin 1) => (2 : ℝ)) (fun _ _ => (0 : ℝ)))
      5 0 0 = 1 ∧
    clampedRatioOf (rawRatioOf (fun (_ : Fin 1) (_ : Fin 1) => (2 : ℝ)) (fun _ _ => (0 : ℝ)))
      5 0 0 = 5 ∧
    negMulAdv (clampedRatioOf
        (rawRatioOf (fun (_ : Fin 1) (_ : Fin 1) => (2 : ℝ)) (fun _ _ => (0 : ℝ))) 5)
      (fun _ _ => (1 : ℝ)) 0 0 = -5 * (fun (_ : Fin 1) (_ : Fin 1) => (1 : ℝ)) 0 0) :=
  ⟨by norm_num,
    c7_ratio_policy_concrete (fun _ _ => (2 : ℝ)) (fun _ _ => (0 : ℝ)) (fun _ _ => (1 : ℝ))
      0 0 (by norm_num)⟩

theorem c10_zero_advantage_never_clipped_witness :
    ((fun (_ : Fin 1) (_ : Fin 1) => (0 : ℝ)) 0 0 = 0) ∧
    (clipIsClipped
        (negMulAdv (clipCoef1 (fun (_ : Fin 1) (_ : Fin 1) => (0 : ℝ)) (fun _ _ => (0 : ℝ)) 5)
          (fun _ _ => (0 : ℝ)))
        (negMulAdv (clipCoef2
            (clipCoef1 (fun (_ : Fin 1) (_ : Fin 1) => (0 : ℝ)) (fun _ _ => (0 : ℝ)) 5)
            (1 / 5) (1 / 5))
          (fun _ _ => (0 : ℝ))) 0 0 = 0 ∧
    clipIsClipped
        (negMulAdv (clipCoef1 (fun (_ : Fin 1) (_ : Fin 1) => (0 : ℝ)) (fun _ _ => (0 : ℝ)) 5)
          (fun _ _ => (0 : ℝ)))
        (negMulAdv (clipCoef2
            (clipCoef1 (fun (_ : Fin 1) (_ : Fin 1) => (0 : ℝ)) (fun _ _ => (0 : ℝ)) 5)
            (1 / 5) (1 / 5))
          (fun _ _ => (0 : ℝ))) 0 0 * (((fun (_ : Fin 1) (_ : Fin 1) => (1 : ℤ)) 0 0 : ℤ) : ℝ)
      = 0) :=
  ⟨rfl,
    c10_zero_advantage_never_clipped (fun _ _ => (0 : ℝ)) (fun _ _ => (0 : ℝ))
      (fun _ _ => (0 : ℝ)) (fun _ _ => (1 : ℤ)) (1 / 5) (1 / 5) 5 0 0 rfl⟩

theorem c5_clipped_count_independent_witness :
    (grpo_loss_clip DType.float32 (fun (_ : Fin 0) (_ : Fin 1) (_ : Fin 1) => (0 : ℝ))
      (fun _ _ => 0) (fun _ _ => 0) (fun _ _ => 0) (fun _ _ => 0) 1 1 1 1 1 =
      Except.ok ((0 : ℝ), (0 : ℝ), (0 : ℝ))) ∧
    (grpo_loss_clip DType.float32 (fun (_ : Fin 0) (_ : Fin 1) (_ : Fin 1) => (0 : ℝ))
      (fun _ _ => 0) (fun _ _ => 0) (fun _ _ => 0) (fun _ _ => 0) 1 1 1 1 2 =
      Except.ok ((0 : ℝ), (0 : ℝ), (0 : ℝ))) ∧
    (grpo_loss_ratio DType.float32 (fun (_ : Fin 0) (_ : Fin 1) (_ : Fin 1) => (0 : ℝ))
      (fun _ _ => 0) (fun _ _ => 0) (fun _ _ => 0) (fun _ _ => 0) 1 1 1 =
      Except.ok ((0 : ℝ), (0 : ℝ), (0 : ℝ))) ∧
    (grpo_loss_ratio DType.float32 (fun (_ : Fin 0) (_ : Fin 1) (_ : Fin 1) => (0 : ℝ))
      (fun _ _ => 0) (fun _ _ => 0) (fun _ _ => 0) (fun _ _ => 0) 1 1 2 =
      Except.ok ((0 : ℝ), (0 : ℝ), (0 : ℝ))) ∧
    (((0 : ℝ), (0 : ℝ), (0 : ℝ)).2.2 = ((0 : ℝ), (0 : ℝ), (0 : ℝ)).2.2) ∧
    (((0 : ℝ), (0 : ℝ), (0 : ℝ)).2.2 = ((0 : ℝ), (0 : ℝ), (0 : ℝ)).2.2) := by
  have hclip1 : grpo_loss_clip DType.float32 (fun (_ : Fin 0) (_ : Fin 1) (_ : Fin 1) => (0 : ℝ))
      (fun _ _ => 0) (fun _ _ => 0) (fun _ _ => 0) (fun _ _ => 0) 1 1 1 1 1 =
      Except.ok ((0 : ℝ), (0 : ℝ), (0 : ℝ)) := by
    norm_num [grpo_loss_clip, masked_sum]
  have hclip2 : grpo_loss_clip DType.float32 (fun (_ : Fin 0) (_ : Fin 1) (_ : Fin 1) => (0 : ℝ))
      (fun _ _ => 0) (fun _ _ => 0) (fun _ _ => 0) (fun _ _ => 0) 1 1 1 1 2 =
      Except.ok ((0 : ℝ), (0 : ℝ), (0 : ℝ)) := by
    norm_num [grpo_loss_clip, masked_sum]
  have hratio1 : grpo_loss_ratio DType.float32 (fun (_ : Fin 0) (_ : Fin 1) (_ : Fin 1) => (0 : ℝ))
      (fun _ _ => 0) (fun _ _ => 0) (fun _ _ => 0) (fun _ _ => 0) 1 1 1 =
      Except.ok ((0 : ℝ), (0 : ℝ), (0 : ℝ)) := by
    norm_num [grpo_loss_ratio, masked_sum]
  have hratio2 : grpo_loss_ratio DType.float32 (fun (_ : Fin 0) (_ : Fin 1) (_ : Fin 1) => (0 : ℝ))
      (fun _ _ => 0) (fun _ _ => 0) (fun _ _ => 0) (fun _ _ => 0) 1 1 2 =
      Except.ok ((0 : ℝ), (0 : ℝ), (0 : ℝ)) := by
    norm_num [grpo_loss_ratio, masked_sum]
  refine ⟨hclip1, hclip2, hratio1, hratio2, ?_, ?_⟩
  · exact (c5_clipped_count_independent.1 DType.float32 _ _ _ _ _ 1 1 1 1 1 2 _ _
      hclip1 hclip2).2
  · exact (c5_clipped_count_independent.2 DType.float32 _ _ _ _ _ 1 1 1 2 _ _
      hratio1 hratio2).2

theorem getD_map_of_lt {α β : Type} (l : List α) (f : α → β) (b : ℕ) (hb : b < l.length)
    (d : β) (e : α) : (l.map f).getD b d = f (l.getD b e) := by
  rw [List.getD_eq_getElem?_getD, List.getD_eq_getElem?_getD, List.getElem?_map,
    List.getElem?_eq_getElem hb]
  simp

theorem getD_mem_of_lt {α : Type} (l : List α) (b : ℕ) (hb : b < l.length) (d : α) :
    l.getD b d ∈ l := by
  rw [List.getD_eq_getElem?_getD, List.getElem?_eq_getElem hb]
  exact List.getElem_mem hb

theorem getD_dropLast_of_lt {α : Type} (l : List α) (i : ℕ) (hi : i < l.length - 1) (d : α) :
    l.dropLast.getD i d = l.getD i d := by
  rw [List.getD_eq_getElem?_getD, List.getD_eq_getElem?_getD, List.dropLast_eq_take,
    List.getElem?_take]
  simp [hi]

/-- Claim C4: for every well-shaped scores tensor with at least one
sequence position, `shift_logits` returns a tensor of the same shape in
which position 0 is the all-zero vocabulary vector and every position
`i > 0` equals input position `i - 1` (the last input position is
dropped). -/
theorem c4_shift_logits_correct (l : List (List (List ℝ))) (B S V : ℕ)
    (hw : WellShaped l B S V) (hS : 1 ≤ S) :
    (shift_logits l).length = B ∧
    (∀ r ∈ shift_logits l, r.length = S) ∧
    (∀ b : ℕ, b < B → ((shift_logits l).getD b []).getD 0 [] = List.replicate V 0) ∧
    (∀ b i : ℕ, b < B → 0 < i → i < S →
      ((shift_logits l).getD b []).getD i [] = (l.getD b []).getD (i - 1) []) := by
  obtain ⟨hB, hrow, hinner⟩ := hw
  have hV : ∀ b : ℕ, b < B → tensorVocabLen l = V := by
    intro b hb
    have hb0 : 0 < l.length := by omega
    have hr0 : l.getD 0 [] ∈ l := getD_mem_of_lt l 0 hb0 []
    have hr0len : (l.getD 0 []).length = S := hrow _ hr0
    have hx0 : (l.getD 0 []).getD 0 [] ∈ l.getD 0 [] := by
      apply getD_mem_of_lt
      omega
    exact hinner _ hr0 _ hx0
  refine ⟨?_, ?_, ?_, ?_⟩
  · rw [shift_logits, List.length_map, hB]
  · intro r hr
    rw [shift_logits, List.mem_map] at hr
    obtain ⟨row, hrow_mem, rfl⟩ := hr
    have : row.length = S := hrow row hrow_mem
    simp [List.length_dropLast, this]
    omega
  · intro b hb
    rw [shift_logits, getD_map_of_lt _ _ b (by omega) [] [], List.getD_cons_zero, hV b hb]
  · intro b i hb hi0 hiS
    rw [shift_logits, getD_map_of_lt _ _ b (by omega) [] []]
    have hrb : (l.getD b []).length = S := hrow _ (getD_mem_of_lt l b (by omega) [])
    obtain ⟨j, rfl⟩ : ∃ j, i = j + 1 := ⟨i - 1, by omega⟩
    rw [List.getD_cons_succ, getD_dropLast_of_lt _ j (by omega) []]
    simp

theorem c4_shift_logits_correct_witness :
    WellShaped [[[(1 : ℝ)], [2]]] 1 2 1 ∧ 1 ≤ 2 ∧
    ((shift_logits [[[(1 : ℝ)], [2]]]).length = 1 ∧
    (∀ r ∈ shift_logits [[[(1 : ℝ)], [2]]], r.length = 2) ∧
    (∀ b : ℕ, b < 1 →
      ((shift_logits [[[(1 : ℝ)], [2]]]).getD b []).getD 0 [] = List.replicate 1 0) ∧
    (∀ b i : ℕ, b < 1 → 0 < i → i < 2 →
      ((shift_logits [[[(1 : ℝ)], [2]]]).getD b []).getD i [] =
        ([[[(1 : ℝ)], [2]]].getD b []).getD (i - 1) [])) :=
  ⟨by decide, by norm_num, c4_shift_logits_correct [[[(1 : ℝ)], [2]]] 1 2 1 (by decide) (by norm_num)⟩

theorem entropyRow_pair (a b : ℝ) :
    entropyRow ![a, b] = Real.log (Real.exp a + Real.exp b) -
      (Real.exp a * a + Real.exp b * b) / (Real.exp a + Real.exp b) := by
  have hZ : (0 : ℝ) < Real.exp a + Real.exp b := by positivity
  simp only [entropyRow, logsumexp, softmax, Fin.sum_univ_two, Matrix.cons_val_zero,
    Matrix.cons_val_one, Matrix.head_cons]
  congr 1
  field_simp

theorem entropyRow_triple (a b c : ℝ) :
    entropyRow ![a, b, c] = Real.log (Real.exp a + Real.exp b + Real.exp c) -
      (Real.exp a * a + Real.exp b * b + Real.exp c * c) /
        (Real.exp a + Real.exp b + Real.exp c) := by
  have hZ : (0 : ℝ) < Real.exp a + Real.exp b + Real.exp c := by positivity
  simp only [entropyRow, logsumexp, softmax, Fin.sum_univ_three, Matrix.cons_val_zero,
    Matrix.cons_val_one, Matrix.head_cons, Matrix.cons_val_two, Matrix.tail_cons]
  congr 1
  field_simp

theorem c2_entropy_lt : entropyRow ![(0 : ℝ), 4] < entropyRow ![(0 : ℝ), 0] := by
  rw [entropyRow_pair, entropyRow_pair, Real.exp_zero]
  have hlog2 := Real.log_two_gt_d9
  set E := Real.exp 4 with hEdef
  set u := Real.exp (-4) with hudef
  have hEpos : 0 < E := Real.exp_pos 4
  have hupos : 0 < u := Real.exp_pos _
  have hEu : E * u = 1 := by rw [hEdef, hudef, ← Real.exp_add]; norm_num
  have hE16 : (16 : ℝ) < E := by
    have h4 : E = Real.exp 1 ^ 4 := by rw [hEdef, ← Real.exp_nat_mul]; norm_num
    have h2 : (2 : ℝ) < Real.exp 1 := by nlinarith [Real.exp_one_gt_d9]
    have h16 : (2 : ℝ) ^ 4 < Real.exp 1 ^ 4 :=
      pow_lt_pow_left₀ h2 (by norm_num) (by norm_num)
    rw [h4]; nlinarith
  have hu16 : u < 1 / 16 := by nlinarith
  have hA : Real.log (1 + E) ≤ 4 + u := by
    have hfact : 1 + E = E * (1 + u) := by rw [mul_add, mul_one, hEu]; ring
    rw [hfact, Real.log_mul (ne_of_gt hEpos) (by positivity), hEdef, Real.log_exp]
    have := Real.log_le_sub_one_of_pos (show (0 : ℝ) < 1 + u by positivity)
    linarith
  have hB : 4 - 4 * u ≤ (1 * 0 + E * 4) / (1 + E) := by
    rw [le_div_iff₀ (by positivity)]
    nlinarith
  have h12 : Real.log (1 + 1 : ℝ) = Real.log 2 := by norm_num
  have hz : (1 * 0 + 1 * 0) / ((1 : ℝ) + 1) = 0 := by norm_num
  rw [h12, hz]
  linarith

theorem c9_entropy_eA_gt : (0.8 : ℝ) < entropyRow ![(0 : ℝ), 0, 1] := by
  rw [entropyRow_triple, Real.exp_zero]
  set L := Real.log (1 + 1 + Real.exp 1) with hLdef
  set Q := (1 * 0 + 1 * 0 + Real.exp 1 * 1) / (1 + 1 + Real.exp 1) with hQdef
  have hlog2 := Real.log_two_gt_d9
  have hegt : (2.7182818283 : ℝ) < Real.exp 1 := Real.exp_one_gt_d9
  have helt : Real.exp 1 < 2.7182818286 := Real.exp_one_lt_d9
  have hA : Real.log 4 ≤ L := by
    rw [hLdef]
    exact Real.log_le_log (by norm_num) (by nlinarith)
  have hlog4 : Real.log 4 = 2 * Real.log 2 := by
    rw [show (4 : ℝ) = 2 ^ 2 by norm_num, Real.log_pow]
    norm_num
  have hB : Q < 0.58 := by
    rw [hQdef, div_lt_iff₀ (by positivity)]
    nlinarith
  linarith

theorem c9_entropy_eB_lt : entropyRow ![(0 : ℝ), 10, 10] < (0.7 : ℝ) := by
  rw [entropyRow_triple, Real.exp_zero]
  have hlog2 := Real.log_two_lt_d9
  set E := Real.exp 10 with hEdef
  set u := Real.exp (-10) with hudef
  have hEpos : 0 < E := Real.exp_pos 10
  have hupos : 0 < u := Real.exp_pos _
  have hEu : E * u = 1 := by rw [hEdef, hudef, ← Real.exp_add]; norm_num
  have hE1000 : (1000 : ℝ) < E := by
    have h10 : E = Real.exp 1 ^ 10 := by rw [hEdef, ← Real.exp_nat_mul]; norm_num
    have h2 : (2 : ℝ) < Real.exp 1 := by nlinarith [Real.exp_one_gt_d9]
    have h1024 : (2 : ℝ) ^ 10 < Real.exp 1 ^ 10 :=
      pow_lt_pow_left₀ h2 (by norm_num) (by norm_num)
    rw [h10]; nlinarith
  have hu1000 : u < 1 / 1000 := by nlinarith
  have hA : Real.log (1 + E + E) ≤ 10 + Real.log 2 + u / 2 := by
    have hfact : 1 + E + E = E * (2 + u) := by rw [mul_add, hEu]; ring
    have hfact2 : (2 : ℝ) + u = 2 * (1 + u / 2) := by ring
    rw [hfact, Real.log_mul (ne_of_gt hEpos) (by positivity), hEdef, Real.log_exp, hfact2,
      Real.log_mul (by norm_num) (by positivity)]
    have := Real.log_le_sub_one_of_pos (show (0 : ℝ) < 1 + u / 2 by positivity)
    linarith
  have hB : 10 - 5 * u ≤ (1 * 0 + E * 10 + E * 10) / (1 + E + E) := by
    rw [le_div_iff₀ (by positivity)]
    nlinarith
  have := Real.log_two_gt_d9
  linarith

theorem c9_entropy_eA2_lt : entropyRow ![(0 : ℝ), 0, 10] < (0.05 : ℝ) := by
  rw [entropyRow_triple, Real.exp_zero]
  set E := Real.exp 10 with hEdef
  set u := Real.exp (-10) with hudef
  have hEpos : 0 < E := Real.exp_pos 10
  have hupos : 0 < u := Real.exp_pos _
  have hEu : E * u = 1 := by rw [hEdef, hudef, ← Real.exp_add]; norm_num
  have hE1000 : (1000 : ℝ) < E := by
    have h10 : E = Real.exp 1 ^ 10 := by rw [hEdef, ← Real.exp_nat_mul]; norm_num
    have h2 : (2 : ℝ) < Real.exp 1 := by nlinarith [Real.exp_one_gt_d9]
    have h1024 : (2 : ℝ) ^ 10 < Real.exp 1 ^ 10 :=
      pow_lt_pow_left₀ h2 (by norm_num) (by norm_num)
    rw [h10]; nlinarith
  have hu1000 : u < 1 / 1000 := by nlinarith
  set L := Real.log (1 + 1 + E) with hLdef
  set Q := (1 * 0 + 1 * 0 + E * 10) / (1 + 1 + E) with hQdef
  have hA : L ≤ 10 + 2 * u := by
    have hfact : 1 + 1 + E = E * (1 + 2 * u) := by rw [mul_add, mul_one]; nlinarith
    rw [hLdef, hfact, Real.log_mul (ne_of_gt hEpos) (by positivity), hEdef, Real.log_exp]
    have := Real.log_le_sub_one_of_pos (show (0 : ℝ) < 1 + 2 * u by positivity)
    linarith
  have hB : 10 - 20 * u ≤ Q := by
    rw [hQdef, le_div_iff₀ (by positivity)]
    nlinarith
  linarith

theorem c9_entropy_eB2_gt : (0.69 : ℝ) < entropyRow ![(0 : ℝ), 100, 100] := by
  rw [entropyRow_triple, Real.exp_zero]
  have hlog2 := Real.log_two_gt_d9
  set E := Real.exp 100 with hEdef
  have hEpos : 0 < E := Real.exp_pos 100
  have hA : Real.log 2 + 100 ≤ Real.log (1 + E + E) := by
    have h2E : Real.log (2 * E) = Real.log 2 + 100 := by
      rw [Real.log_mul (by norm_num) (ne_of_gt hEpos), hEdef, Real.log_exp]
    rw [← h2E]
    exact Real.log_le_log (by positivity) (by linarith)
  have hB : (1 * 0 + E * 100 + E * 100) / (1 + E + E) ≤ 100 := by
    rw [div_le_iff₀ (by positivity)]
    nlinarith
  linarith

theorem kthvalue_eq_of_sorted (l l' : List ℝ) (hperm : List.Perm l l')
    (hsort : List.Sorted (· ≤ ·) l') (r : ℤ) (h1 : 1 ≤ r) (i : ℕ) (hi : i < l'.length)
    (hr : (r - 1).toNat = i) :
    kthvalue l r = Except.ok (l'.get ⟨i, hi⟩) := by
  have hs : List.insertionSort (· ≤ ·) l = l' :=
    List.eq_of_perm_of_sorted ((List.perm_insertionSort _ l).trans hperm)
      (List.sorted_insertionSort _ l) hsort
  subst hs
  simp only [kthvalue]
  rw [dif_pos ⟨h1, by omega⟩]
  subst hr
  rfl

theorem highest_entropy_mask_rank_eval {B S V : ℕ} (logits : Fin B → Fin S → Fin V → ℝ)
    (m : Fin B → Fin S → ℤ) (p : ℝ) (k : ℤ) (θ : ℝ)
    (hk0 : pyInt (p * ((validEntropyList (fun b s => entropyRow (logits b s)) m).length : ℝ)) = k)
    (hk1 : 1 ≤ k)
    (hkn : k ≠ ((validEntropyList (fun b s => entropyRow (logits b s)) m).length : ℤ))
    (hkth : kthvalue (validEntropyList (fun b s => entropyRow (logits b s)) m)
      (((validEntropyList (fun b s => entropyRow (logits b s)) m).length : ℤ) - k + 1) =
      Except.ok θ) :
    highest_entropy_mask logits m p =
      Except.ok fun b s => decide (θ ≤ entropyRow (logits b s)) && decide (m b s ≠ 0) := by
  simp only [highest_entropy_mask]
  rw [hk0, if_neg (not_lt.mpr hk1), if_neg hkn, hkth]

/-- Claim C2 as stated is false on the code: on a batch with `N = 3` valid
positions, `p = 1/2` and entropies `[log 2, H, H]` with `H < log 2`, the
selector picks exactly 1 position, but `max(1, round(p·N)) = round(1.5) = 2`:
the code computes `k` via `int(p * N)` (floor), not `round`. -/
theorem c2_round_counterexample :
    Except.map selectedCount (highest_entropy_mask c2Logits c2Mask (1 / 2)) = Except.ok 1 ∧
    numValidPositions c2Mask = 3 ∧
    max 1 (round ((1 / 2 : ℝ) * (numValidPositions c2Mask : ℝ))) = 2 := by
  have ha : entropyRow ![(0 : ℝ), 4] < entropyRow ![(0 : ℝ), 0] := c2_entropy_lt
  set b4 := entropyRow ![(0 : ℝ), 4] with hb4def
  set a0 := entropyRow ![(0 : ℝ), 0] with ha0def
  have hlist : validEntropyList (fun b s => entropyRow (c2Logits b s)) c2Mask = [a0, b4, b4] :=
    rfl
  have hsorted : List.Sorted (· ≤ ·) [b4, b4, a0] := by
    rw [List.sorted_cons, List.sorted_cons]
    refine ⟨?_, ?_, List.sorted_singleton a0⟩
    · intro x hx
      rcases List.mem_cons.mp hx with rfl | hx'
      · exact le_refl _
      · rw [List.mem_singleton] at hx'
        subst hx'
        exact ha.le
    · intro x hx
      rw [List.mem_singleton] at hx
      subst hx
      exact ha.le
  have hperm : List.Perm [a0, b4, b4] [b4, b4, a0] :=
    (List.Perm.swap b4 a0 [b4]).trans (List.Perm.cons b4 (List.Perm.swap b4 a0 []))
  have hkth : kthvalue [a0, b4, b4] 3 = Except.ok a0 :=
    kthvalue_eq_of_sorted [a0, b4, b4] [b4, b4, a0] hperm hsorted 3 (by norm_num) 2
      (by norm_num) (by decide)
  have hk0 : pyInt ((1 / 2 : ℝ) *
      ((validEntropyList (fun b s => entropyRow (c2Logits b s)) c2Mask).length : ℝ)) = 1 := by
    rw [hlist]
    show pyInt ((1 / 2 : ℝ) * ((3 : ℕ) : ℝ)) = 1
    rw [pyInt, if_pos (by norm_num)]
    rw [Int.floor_eq_iff]
    constructor <;> norm_num
  have hkn : (1 : ℤ) ≠
      ((validEntropyList (fun b s => entropyRow (c2Logits b s)) c2Mask).length : ℤ) := by
    rw [hlist]
    norm_num
  have hkth' : kthvalue (validEntropyList (fun b s => entropyRow (c2Logits b s)) c2Mask)
      (((validEntropyList (fun b s => entropyRow (c2Logits b s)) c2Mask).length : ℤ) - 1 + 1) =
      Except.ok a0 := by
    rw [hlist]
    show kthvalue [a0, b4, b4] (((3 : ℕ) : ℤ) - 1 + 1) = Except.ok a0
    rw [show (((3 : ℕ) : ℤ) - 1 + 1) = 3 by norm_num]
    exact hkth
  have hmask := highest_entropy_mask_rank_eval c2Logits c2Mask (1 / 2) 1 a0 hk0
    (by norm_num) hkn hkth'
  refine ⟨?_, by decide, ?_⟩
  · rw [hmask]
    simp only [Except.map]
    congr 1
    rw [selectedCount_eq_countP (fun b s => entropyRow (c2Logits b s)) c2Mask a0, hlist]
    simp only [List.countP_cons, List.countP_nil, decide_eq_true (le_refl a0),
      decide_eq_false (not_le.mpr ha)]
    norm_num
  · rw [show numValidPositions c2Mask = 3 from by decide]
    norm_num [round_eq]

theorem scale_c9_one : scaleByTemperature c9Logits 1 = c9Logits := by
  funext b s v
  simp [scaleByTemperature]

theorem scale_c9_tenth : scaleByTemperature c9Logits (1 / 10) = c9LogitsT := by
  funext b s v
  fin_cases s <;> fin_cases v <;>
    simp [scaleByTemperature, c9Logits, c9LogitsT] <;> norm_num

theorem c9_mask_at_temp_one :
    highest_entropy_mask c9Logits c9Mask (1 / 2) = Except.ok c9maskA := by
  have hBA : entropyRow ![(0 : ℝ), 10, 10] < entropyRow ![(0 : ℝ), 0, 1] :=
    lt_trans c9_entropy_eB_lt (by linarith [c9_entropy_eA_gt])
  set eA := entropyRow ![(0 : ℝ), 0, 1] with heA
  set eB := entropyRow ![(0 : ℝ), 10, 10] with heB
  have hlist : validEntropyList (fun b s => entropyRow (c9Logits b s)) c9Mask = [eA, eB] := rfl
  have hsorted : List.Sorted (· ≤ ·) [eB, eA] := by
    rw [List.sorted_cons]
    refine ⟨?_, List.sorted_singleton eA⟩
    intro x hx
    rw [List.mem_singleton] at hx
    subst hx
    exact hBA.le
  have hperm : List.Perm [eA, eB] [eB, eA] := List.Perm.swap eB eA []
  have hkth : kthvalue [eA, eB] 2 = Except.ok eA :=
    kthvalue_eq_of_sorted [eA, eB] [eB, eA] hperm hsorted 2 (by norm_num) 1
      (by norm_num) (by decide)
  have hk0 : pyInt ((1 / 2 : ℝ) *
      ((validEntropyList (fun b s => entropyRow (c9Logits b s)) c9Mask).length : ℝ)) = 1 := by
    rw [hlist]
    show pyInt ((1 / 2 : ℝ) * ((2 : ℕ) : ℝ)) = 1
    rw [pyInt, if_pos (by norm_num)]
    norm_num
  have hkn : (1 : ℤ) ≠
      ((validEntropyList (fun b s => entropyRow (c9Logits b s)) c9Mask).length : ℤ) := by
    rw [hlist]
    norm_num
  have hkth' : kthvalue (validEntropyList (fun b s => entropyRow (c9Logits b s)) c9Mask)
      (((validEntropyList (fun b s => entropyRow (c9Logits b s)) c9Mask).length : ℤ) - 1 + 1) =
      Except.ok eA := by
    rw [hlist]
    show kthvalue [eA, eB] (((2 : ℕ) : ℤ) - 1 + 1) = Except.ok eA
    rw [show (((2 : ℕ) : ℤ) - 1 + 1) = 2 by norm_num]
    exact hkth
  exact highest_entropy_mask_rank_eval c9Logits c9Mask (1 / 2) 1 eA hk0 (by norm_num) hkn hkth'

theorem c9_mask_at_temp_tenth :
    highest_entropy_mask c9LogitsT c9Mask (1 / 2) = Except.ok c9maskB := by
  have hAB : entropyRow ![(0 : ℝ), 0, 10] < entropyRow ![(0 : ℝ), 100, 100] :=
    lt_trans c9_entropy_eA2_lt (by linarith [c9_entropy_eB2_gt])
  set eA := entropyRow ![(0 : ℝ), 0, 10] with heA
  set eB := entropyRow ![(0 : ℝ), 100, 100] with heB
  have hlist : validEntropyList (fun b s => entropyRow (c9LogitsT b s)) c9Mask = [eA, eB] := rfl
  have hsorted : List.Sorted (· ≤ ·) [eA, eB] := by
    rw [List.sorted_cons]
    refine ⟨?_, List.sorted_singleton eB⟩
    intro x hx
    rw [List.mem_singleton] at hx
    subst hx
    exact hAB.le
  have hperm : List.Perm [eA, eB] [eA, eB] := List.Perm.refl _
  have hkth : kthvalue [eA, eB] 2 = Except.ok eB :=
    kthvalue_eq_of_sorted [eA, eB] [eA, eB] hperm hsorted 2 (by norm_num) 1
      (by norm_num) (by decide)
  have hk0 : pyInt ((1 / 2 : ℝ) *
      ((validEntropyList (fun b s => entropyRow (c9LogitsT b s)) c9Mask).length : ℝ)) = 1 := by
    rw [hlist]
    show pyInt ((1 / 2 : ℝ) * ((2 : ℕ) : ℝ)) = 1
    rw [pyInt, if_pos (by norm_num)]
    norm_num
  have hkn : (1 : ℤ) ≠
      ((validEntropyList (fun b s => entropyRow (c9LogitsT b s)) c9Mask).length : ℤ) := by
    rw [hlist]
    norm_num
  have hkth' : kthvalue (validEntropyList (fun b s => entropyRow (c9LogitsT b s)) c9Mask)
      (((validEntropyList (fun b s => entropyRow (c9LogitsT b s)) c9Mask).length : ℤ) - 1 + 1) =
      Except.ok eB := by
    rw [hlist]
    show kthvalue [eA, eB] (((2 : ℕ) : ℤ) - 1 + 1) = Except.ok eB
    rw [show (((2 : ℕ) : ℤ) - 1 + 1) = 2 by norm_num]
    exact hkth
  exact highest_entropy_mask_rank_eval c9LogitsT c9Mask (1 / 2) 1 eB hk0 (by norm_num) hkn hkth'

/-- Claim C9: in both engines, all temperature dependence — including the
entropy used for token selection — enters through the single
temperature-divided score tensor handed to the log-probability extractor
and the selector (which applies no further scaling): each engine at
temperature `T` coincides with itself at temperature 1 on the pre-scaled
scores. Consequently the selected subset can differ between temperatures on
identical unscaled scores: on `c9Logits` with `p = 1/2`, at `T = 1` the
selector picks position 0 (`[0,0,1]` has the higher entropy) while at
`T = 1/10` it drops position 0 (`[0,100,100]` has the higher entropy). -/
theorem c9_selection_uses_temperature_scaled_scores :
    (∀ (B S V : ℕ) (dt : DType) (sl : Fin B → Fin S → Fin V → ℝ)
      (ids : Fin B → Fin S → Fin V) (adv ol : Fin B → Fin S → ℝ)
      (m : Fin B → Fin S → ℤ) (T el eh cr p : ℝ),
      grpo_loss_clip dt sl ids adv ol m T el eh cr p =
        grpo_loss_clip dt (scaleByTemperature sl T) ids adv ol m 1 el eh cr p) ∧
    (∀ (B S V : ℕ) (dt : DType) (sl : Fin B → Fin S → Fin V → ℝ)
      (ids : Fin B → Fin S → Fin V) (adv ol : Fin B → Fin S → ℝ)
      (m : Fin B → Fin S → ℤ) (T cr p : ℝ),
      grpo_loss_ratio dt sl ids adv ol m T cr p =
        grpo_loss_ratio dt (scaleByTemperature sl T) ids adv ol m 1 cr p) ∧
    highest_entropy_mask (scaleByTemperature c9Logits 1) c9Mask (1 / 2) = Except.ok c9maskA ∧
    highest_entropy_mask (scaleByTemperature c9Logits (1 / 10)) c9Mask (1 / 2) =
      Except.ok c9maskB ∧
    c9maskA 0 0 = true ∧
    c9maskB 0 0 = false := by
  refine ⟨?_, ?_, ?_, ?_, ?_, ?_⟩
  · intro B S V dt sl ids adv ol m T el eh cr p
    have hs : scaleByTemperature (scaleByTemperature sl T) 1 = scaleByTemperature sl T := by
      funext b s v
      simp [scaleByTemperature]
    simp only [grpo_loss_clip, hs]
  · intro B S V dt sl ids adv ol m T cr p
    have hs : scaleByTemperature (scaleByTemperature sl T) 1 = scaleByTemperature sl T := by
      funext b s v
      simp [scaleByTemperature]
    simp only [grpo_loss_ratio, hs]
  · rw [scale_c9_one]
    exact c9_mask_at_temp_one
  · rw [scale_c9_tenth]
    exact c9_mask_at_temp_tenth
  · show (decide (entropyRow ![(0 : ℝ), 0, 1] ≤ entropyRow ![(0 : ℝ), 0, 1]) &&
      decide (c9Mask 0 0 ≠ 0)) = true
    rw [decide_eq_true (le_refl (entropyRow ![(0 : ℝ), 0, 1])),
      decide_eq_true (show c9Mask 0 0 ≠ 0 by decide)]
    rfl
  · show (decide (entropyRow ![(0 : ℝ), 100, 100] ≤ entropyRow (c9LogitsT 0 0)) &&
      decide (c9Mask 0 0 ≠ 0)) = false
    have hlt : entropyRow (c9LogitsT 0 0) < entropyRow ![(0 : ℝ), 100, 100] := by
      show entropyRow ![(0 : ℝ), 0, 10] < entropyRow ![(0 : ℝ), 100, 100]
      exact lt_trans c9_entropy_eA2_lt (by linarith [c9_entropy_eB2_gt])
    rw [decide_eq_false (not_le.mpr hlt)]
    rfl
